import Mathlib

/-
Verification of the concerto recurring-task scheduler (Rust) against its
natural-language specification.  The Rust sources are shallowly embedded:
strings are Lean `String`s manipulated through explicit character-list
helpers mirroring the byte/char operations of the Rust code (all inputs of
interest are ASCII); `u64` values are `Nat` with an explicit `2 ^ 64` bound
where Rust's `parse::<u64>` would overflow; fallible Rust functions
returning `Result` become `Except String`; logging (`println!`,
`eprintln!` warnings) is elided, it carries no data flow.
-/

deriving instance DecidableEq for Except

namespace Concerto

/-- Size bound of Rust's `u64`. -/
def U64SIZE : Nat := 2 ^ 64

/-- The character `{` (written via its code point to keep it out of string
literals). -/
def lbrace : Char := Char.ofNat 123

/-- The character `}`. -/
def rbrace : Char := Char.ofNat 125

/-- Whitespace trimming from both ends, modelling Rust `str::trim`. -/
def trimChars (cs : List Char) : List Char :=
  ((cs.dropWhile Char.isWhitespace).reverse.dropWhile Char.isWhitespace).reverse

/-- Models Rust `str::starts_with(pat)` on character lists. -/
def startsWithL : List Char → List Char → Bool
  | [], _ => true
  | _ :: _, [] => false
  | p :: ps, c :: cs => p == c && startsWithL ps cs

/-- Models Rust `str::ends_with(pat)` on character lists. -/
def endsWithL (pat cs : List Char) : Bool :=
  startsWithL pat.reverse cs.reverse

/-- Models Rust `str::contains(pat)` on character lists. -/
def containsSeq (pat : List Char) : List Char → Bool
  | [] => pat.isEmpty
  | c :: cs => startsWithL pat (c :: cs) || containsSeq pat cs

/-- Index of the first occurrence of `c`, modelling Rust `str::find(c)`
(byte positions coincide with character positions on ASCII input). -/
def findCharIdx (c : Char) : List Char → Option Nat
  | [] => none
  | x :: xs => if x == c then some 0 else (findCharIdx c xs).map (· + 1)

/-- Characters after the first occurrence of `c`; `[]` when `c` does not
occur.  Models Rust `s.find(c).map(|pos| &s[pos+1..]).unwrap_or("")`. -/
def afterFirstChar (c : Char) : List Char → List Char
  | [] => []
  | x :: xs => if x == c then xs else afterFirstChar c xs

/-- Numeric value of a list of ASCII digits (most significant first). -/
def digitsVal (cs : List Char) : Nat :=
  cs.foldl (fun acc c => 10 * acc + (c.toNat - 48)) 0

/-- Models Rust `str::parse::<u64>()`: an optional leading `+`, then one or
more ASCII digits, value below `2 ^ 64`; anything else is an error
(`none`). -/
def parseU64 (s : String) : Option Nat :=
  let cs := s.data
  let cs := match cs with
    | c :: rest => if c = '+' then rest else c :: rest
    | [] => []
  if cs.isEmpty then none
  else if cs.all Char.isDigit then
    if digitsVal cs < U64SIZE then some (digitsVal cs) else none
  else none

/-- Time unit for interval-based scheduling
(src/scheduled-runtime/src/task.rs and
src/concerto-runtime/src/time_unit.rs, identical definitions). -/
inductive TimeUnit where
  | Milliseconds
  | Seconds
  | Minutes
  | Hours
  | Days
deriving DecidableEq

namespace TimeUnit

/-- Conversion to milliseconds, the exact multiplication table of
`TimeUnit::to_millis`; the product is reduced mod `2 ^ 64` where Rust's
release-mode `u64` arithmetic would wrap. -/
def to_millis (u : TimeUnit) (value : Nat) : Nat :=
  match u with
  | .Milliseconds => value % U64SIZE
  | .Seconds => (value * 1000) % U64SIZE
  | .Minutes => (value * 60000) % U64SIZE
  | .Hours => (value * 3600000) % U64SIZE
  | .Days => (value * 86400000) % U64SIZE

/-- ASCII lowercasing of a string, modelling Rust `str::to_lowercase` on
the ASCII inputs this system handles. -/
def lowerStr (s : String) : String :=
  String.mk (s.data.map Char.toLower)

/-- Models `impl FromStr for TimeUnit`: only the five full names, matched
case-insensitively; anything else is `Err("Invalid time unit: {s}")`. -/
def from_str (s : String) : Except String TimeUnit :=
  if lowerStr s = "milliseconds" then .ok .Milliseconds
  else if lowerStr s = "seconds" then .ok .Seconds
  else if lowerStr s = "minutes" then .ok .Minutes
  else if lowerStr s = "hours" then .ok .Hours
  else if lowerStr s = "days" then .ok .Days
  else .error ("Invalid time unit: " ++ s)

/-- The strict lowercase-only suffix table of `parse_duration`. -/
def suffixUnit (rest : List Char) : Option TimeUnit :=
  if rest = ['m', 's'] then some .Milliseconds
  else if rest = ['s'] then some .Seconds
  else if rest = ['m'] then some .Minutes
  else if rest = ['h'] then some .Hours
  else if rest = ['d'] then some .Days
  else none

/-- Models `TimeUnit::parse_duration`: trim, split the leading maximal run
of ASCII digits from the rest (the Rust loop finds the first non-digit
index and `split_at`s there, returning `None` when that index is `0` — no
leading digit, or all characters are digits — which is exactly the
`takeWhile`/`dropWhile` split below with its two emptiness guards), parse
the digit run as `u64`, then match the remainder against the five
lowercase suffixes. -/
def parse_duration (s : String) : Option (Nat × TimeUnit) :=
  let cs := trimChars s.data
  let ds := cs.takeWhile Char.isDigit
  let rest := cs.dropWhile Char.isDigit
  if ds.isEmpty || rest.isEmpty then none
  else
    match parseU64 (String.mk ds), suffixUnit rest with
    | some value, some unit => some (value, unit)
    | _, _ => none

end TimeUnit

/-- The configuration store, an opaque dotted-key lookup: `some v` models
`config.get_string(key) = Ok(v)`, `none` a lookup failure
(src/scheduled-runtime/src/config.rs consumes the external `config::Config`
only through `get_string`). -/
def Config := String → Option String

/-- Models `resolve_config_value` (src/scheduled-runtime/src/config.rs):
a value that starts with `${` and ends with `}` is a placeholder — with a
colon, the part before the first colon is looked up and the part after it
is the default on a missing key; without a colon a missing key is a hard
error — and any other value passes through unchanged.  The source's
multi-line error message is abbreviated to its first sentence; its
missing-key warning is a log line, elided. -/
def resolve_config_value (value : String) (config : Config) : Except String String :=
  if startsWithL ['$', lbrace] value.data && endsWithL [rbrace] value.data then
    let inner := (value.data.drop 2).dropLast
    match findCharIdx ':' inner with
    | some colonPos =>
      let key := String.mk (inner.take colonPos)
      let defaultValue := String.mk (inner.drop (colonPos + 1))
      match config key with
      | some resolved => .ok resolved
      | none => .ok defaultValue
    | none =>
      let key := String.mk inner
      match config key with
      | some resolved => .ok resolved
      | none => .error ("Config key '" ++ key ++ "' not found and no default value provided.")
  else
    .ok value

namespace Scheduler

/-- Models `Scheduler::parse_time_unit`: parse failure falls back to
`Milliseconds` (with a logged warning, elided). -/
def parse_time_unit (time_unit_str : String) : TimeUnit :=
  match TimeUnit.from_str time_unit_str with
  | .ok u => u
  | .error _ => .Milliseconds

/-- Models `Scheduler::parse_initial_delay`: `parse_duration` shorthand
first; otherwise the string is parsed as a bare `u64` (falling back to `0`
with a logged warning, elided) and converted with the supplied unit. -/
def parse_initial_delay (initial_delay : String) (time_unit : TimeUnit) : Nat :=
  match TimeUnit.parse_duration initial_delay with
  | some (value, parsed_unit) => parsed_unit.to_millis value
  | none =>
    let initial_delay_value := (parseU64 initial_delay).getD 0
    time_unit.to_millis initial_delay_value

/-- Models `Scheduler::parse_zone_display`. -/
def parse_zone_display (zone_str : String) : String :=
  if TimeUnit.lowerStr zone_str = "local" then "Local" else zone_str

/-- Models `Scheduler::parse_interval`: shorthand first, then bare `u64`
with the default unit; neither parsing makes it the
`Invalid interval value` error. -/
def parse_interval (interval_str : String) (default_time_unit : TimeUnit) :
    Except String (Nat × TimeUnit × Nat) :=
  match TimeUnit.parse_duration interval_str with
  | some (value, parsed_unit) => .ok (value, parsed_unit, parsed_unit.to_millis value)
  | none =>
    match parseU64 interval_str with
    | some value => .ok (value, default_time_unit, default_time_unit.to_millis value)
    | none => .error ("Invalid interval value: " ++ interval_str)

end Scheduler

/-- The schedule-relevant fields shared verbatim by `RunnableTask`
(src/scheduled-runtime/src/runnable/task.rs), `ScheduledTask`
(src/scheduled-runtime/src/task.rs) and `ScheduledMethodMetadata`: all are
plain strings resolved at start time.  The work handle (`handler` fn,
`Runnable` instance or bound method) carries no data the registration
pipeline inspects and is omitted. -/
structure TaskDescriptor where
  name : String
  schedule_type : String
  schedule_value : String
  initial_delay : String
  enabled : String
  time_unit : String
  zone : String
deriving DecidableEq

/-- Defaults of `ScheduledTask::builder` (src/scheduled-runtime/src/task.rs,
lines 93-107): only `name` (and the handler) are supplied by the caller. -/
def ScheduledTask.builder (name : String) : TaskDescriptor :=
  { name
    schedule_type := "cron"
    schedule_value := "0 0 * * * *"
    initial_delay := "0"
    enabled := "true"
    time_unit := "seconds"
    zone := "UTC" }

/-- Defaults of `RunnableTask::builder`
(src/scheduled-runtime/src/runnable/task.rs, lines 17-31), identical to
the `ScheduledTask` ones. -/
def RunnableTask.builder (name : String) : TaskDescriptor :=
  { name
    schedule_type := "cron"
    schedule_value := "0 0 * * * *"
    initial_delay := "0"
    enabled := "true"
    time_unit := "seconds"
    zone := "UTC" }

/-- Field defaults the `#[scheduled]` macro fills in when an attribute is
omitted (src/scheduled-macro/src/lib.rs, `parse_schedule_args`,
lines 848-851). -/
def macroDefaults : TaskDescriptor :=
  { name := ""
    schedule_type := ""
    schedule_value := ""
    initial_delay := "0"
    enabled := "true"
    time_unit := "milliseconds"
    zone := "local" }

namespace Scheduler

/-- Models the body of `Scheduler::register_runnable_task` /
`register_scheduled_task` / `register_method_task` up to the spawning of
the actual job (the three functions resolve and parse the same descriptor
fields in the same order and differ only in the work handle they capture):
resolve `time_unit`, `initial_delay` and `zone` (each `?`-propagated),
then dispatch on `schedule_type` — `cron` resolves the expression and
hands it to the external cron capability (whose job construction is
modelled as succeeding), `fixed_rate`/`fixed_delay` resolve and parse the
interval (`?`-propagated), and any other type is the
`Unknown schedule type` error. -/
def register_task (config : Config) (task : TaskDescriptor) : Except String Unit := do
  let time_unit_str ← resolve_config_value task.time_unit config
  let time_unit := parse_time_unit time_unit_str
  let initial_delay ← resolve_config_value task.initial_delay config
  let _initial_delay_millis := parse_initial_delay initial_delay time_unit
  let zone_str ← resolve_config_value task.zone config
  let _zone_display := parse_zone_display zone_str
  if task.schedule_type = "cron" then do
    let _cron_expr ← resolve_config_value task.schedule_value config
    pure ()
  else if task.schedule_type = "fixed_rate" ∨ task.schedule_type = "fixed_delay" then do
    let _ ← Scheduler.parse_interval (← resolve_config_value task.schedule_value config) time_unit
    pure ()
  else
    throw ("Unknown schedule type: " ++ task.schedule_type)

/-- Outcome `Scheduler::start` records for one descriptor: skipped as
disabled, registered, or a caught registration failure (logged as
`[ERROR] Failed to register ...` and not propagated). -/
inductive StartOutcome where
  | disabled
  | registered
  | failed (msg : String)
deriving DecidableEq

/-- One iteration of the per-descriptor loop inside `Scheduler::start`
(src/scheduled-runtime/src/scheduler/scheduler.rs, lines 139-204; the
three loops — runnable, scheduled, method tasks — share this exact
shape): the `enabled` field is resolved with `?`, so its failure is the
function's failure; a resolved `"false"` (case-insensitively) skips the
task; otherwise the registration error, if any, is caught and recorded. -/
def start_step (config : Config) (task : TaskDescriptor) : Except String StartOutcome :=
  match resolve_config_value task.enabled config with
  | .error e => .error e
  | .ok enabled =>
    if TimeUnit.lowerStr enabled = "false" then .ok .disabled
    else
      match register_task config task with
      | .ok _ => .ok .registered
      | .error e => .ok (.failed e)

/-- Models the descriptor loop of `Scheduler::start`: each descriptor in
order through `start_step`; a `start_step` error (only possible from the
`?` on the `enabled` resolution) aborts the whole start. -/
def start_tasks (config : Config) : List TaskDescriptor → Except String (List StartOutcome)
  | [] => .ok []
  | t :: ts =>
    match start_step config t with
    | .error e => .error e
    | .ok o =>
      match start_tasks config ts with
      | .error e => .error e
      | .ok os => .ok (o :: os)

end Scheduler

namespace Macro

/-- The three rejection points of `validate_config_placeholder_format`
(src/scheduled-macro/src/lib.rs, lines 95-174); the long diagnostic
messages carry no further data and are abbreviated to their kind. -/
inductive PlaceholderErrorKind where
  | missingClosingBrace
  | mixedSuffix
  | extraChars
deriving DecidableEq

/-- Models `validate_config_placeholder_format` (the `field_name` /
`task_name` parameters feed only the message text and are dropped):
pattern 1 — trimmed value starts with `${` but does not end with `}`;
pattern 2 — it contains `${` and `}` with a non-whitespace remainder
after the first `}`; pattern 3 — it starts with `${`, contains `}` and
has alphabetic content after the first `}`.  The patterns are tried in
order with early return, exactly as in the source. -/
def validate_config_placeholder_format (value : String) : Option PlaceholderErrorKind :=
  let trimmed := trimChars value.data
  if startsWithL ['$', lbrace] trimmed && !endsWithL [rbrace] trimmed then
    some .missingClosingBrace
  else if containsSeq ['$', lbrace] trimmed && containsSeq [rbrace] trimmed
      && (let after := afterFirstChar rbrace trimmed
          !after.isEmpty && !(trimChars after).isEmpty) then
    some .mixedSuffix
  else if startsWithL ['$', lbrace] trimmed && containsSeq [rbrace] trimmed
      && (let after := afterFirstChar rbrace trimmed
          !(trimChars after).isEmpty && after.any Char.isAlpha) then
    some .extraChars
  else
    none

/-- The two rejection points of `validate_positive_value`
(src/scheduled-macro/src/lib.rs, lines 178-213). -/
inductive ValueErrorKind where
  | negative
  | zeroInterval
deriving DecidableEq

/-- Models `validate_positive_value`: config placeholders are skipped
(the source comments they "will be validated at runtime"); otherwise the
leading digit run of the trimmed value is parsed as `i64` and, when that
succeeds, a negative value is rejected (unreachable for a digit run) and
a zero is rejected unless `allow_zero`. -/
def validate_positive_value (value : String) (allow_zero : Bool) : Option ValueErrorKind :=
  if startsWithL ['$', lbrace] value.data then none
  else
    let trimmed := trimChars value.data
    let numStr := trimmed.takeWhile Char.isDigit
    if numStr.isEmpty then none
    else if digitsVal numStr < 2 ^ 63 then
      let num : Int := digitsVal numStr
      if num < 0 then some .negative
      else if !allow_zero && num = 0 then some .zeroInterval
      else none
    else none

end Macro

namespace Loop

/-- Execution trace of the `fixed_delay` interval loop spawned by
`Scheduler::register_runnable_task` (scheduler.rs lines 283-299; the
scheduled- and method-task loops, lines 378-389 and 478-493, have the
same shape): after the initial delay a `tokio::time::interval` is created
whose tick deadlines are fixed at creation time plus multiples of the
period, with an overdue tick completing immediately; the first (immediate)
tick is consumed, then each iteration runs the work to completion and
awaits the next tick.  `t` is the current instant, `deadline` the next
tick's deadline, `p` the period; each work duration in `ws` yields one
`(start, duration)` pair, and the next iteration starts when both the
work (`t + w`) and the pending deadline have passed. -/
def fixedDelayExec (p : Nat) : Nat → Nat → List Nat → List (Nat × Nat)
  | _, _, [] => []
  | t, deadline, w :: ws =>
    (t, w) :: fixedDelayExec p (max (t + w) deadline) (deadline + p) ws

/-- Start instants of the fixed-delay executions for a loop with initial
delay `delay`, period `p` and work durations `ws`. -/
def fixedDelayStarts (delay p : Nat) (ws : List Nat) : List Nat :=
  (fixedDelayExec p delay (delay + p) ws).map Prod.fst

/-- What one invocation of the task body does. -/
inductive WorkOutcome where
  | normal
  | panicked
deriving DecidableEq

/-- Number of invocations a fixed-delay loop actually starts, given the
outcomes of the successive invocations.  When the loop body `isolated`s
the work — `tokio::task::spawn_blocking(...).await.ok()`, as in
`register_runnable_task` — a panic surfaces as a discarded `JoinError`
and the loop continues; when the loop calls the work directly —
`handler()` in `register_scheduled_task`, `caller(...)await` in
`register_method_task` — a panic unwinds out of the loop's own future
and ends it, so nothing after the first panic runs. -/
def fixedDelayStarted (isolated : Bool) : List WorkOutcome → Nat
  | [] => 0
  | .normal :: os => 1 + fixedDelayStarted isolated os
  | .panicked :: os => 1 + (if isolated then fixedDelayStarted isolated os else 0)

/-- The `fixed_delay` branch of `register_runnable_task` awaits
`spawn_blocking` and discards its result with `.ok()` (scheduler.rs
lines 284-289): the loop is isolated from a panic in the work. -/
def runnableFixedDelayIsolated : Bool := true

/-- The `fixed_delay` branch of `register_scheduled_task` calls the
handler directly in the loop body (scheduler.rs line 380): a panic in the
handler unwinds through the loop. -/
def scheduledFixedDelayIsolated : Bool := false

/-- The `fixed_delay` branch of `register_method_task` awaits the method's
future directly in the loop body (scheduler.rs lines 480-481): a panic in
the method unwinds through the loop. -/
def methodFixedDelayIsolated : Bool := false

/-- Number of invocations a fixed-rate loop dispatches: every tick's work
is detached with `tokio::spawn` (scheduler.rs lines 290-297, 382-387,
483-491), so the loop body never awaits the work and a panic inside it
ends only that detached task — every planned invocation is dispatched. -/
def fixedRateDispatched (os : List WorkOutcome) : Nat := os.length

end Loop

/-- The characters of the shorthand suffix belonging to each unit. -/
def suffixChars : TimeUnit → List Char
  | .Milliseconds => ['m', 's']
  | .Seconds => ['s']
  | .Minutes => ['m']
  | .Hours => ['h']
  | .Days => ['d']

/-- Written from the spec's words, for comparison with the code:
the duration shorthand grammar `^[0-9]+(ms|s|m|h|d)$` as a predicate on
the whole string — some decomposition into a non-empty run of ASCII
digits followed by exactly one of the five lowercase suffixes. -/
def specDurationGrammar (s : String) : Bool :=
  [['m', 's'], ['s'], ['m'], ['h'], ['d']].any fun suf =>
    endsWithL suf s.data &&
      (let ds := s.data.take (s.data.length - suf.length)
       !ds.isEmpty && ds.all Char.isDigit)

/-- An empty configuration store. -/
def emptyConfig : Config := fun _ => none

/-- A fixed-rate descriptor whose interval is the literal `"0"`. -/
def zeroRateTask : TaskDescriptor :=
  { ScheduledTask.builder "zero" with schedule_type := "fixed_rate", schedule_value := "0" }

/-- A descriptor whose `enabled` field is a required placeholder for a
missing key. -/
def enabledFailTask : TaskDescriptor :=
  { ScheduledTask.builder "bad-enabled" with enabled := "$\x7bmissing.key\x7d" }

/-- A well-formed fixed-rate descriptor. -/
def goodRateTask : TaskDescriptor :=
  { ScheduledTask.builder "good" with schedule_type := "fixed_rate", schedule_value := "5s" }

/-- A fixed-rate descriptor whose interval parses neither as shorthand nor
as an integer. -/
def badIntervalTask : TaskDescriptor :=
  { ScheduledTask.builder "bad-interval" with
      schedule_type := "fixed_rate", schedule_value := "abc" }

example : specDurationGrammar "500ms" = true := by decide
example : specDurationGrammar " 500ms" = false := by decide
example : resolve_config_value "$\x7ba.b:5s\x7d" emptyConfig = .ok "5s" := by decide
example : resolve_config_value "$\x7ba.b\x7d"
    (fun k => if k = "a.b" then some "7" else none) = .ok "7" := by decide
example : (resolve_config_value "$\x7ba.b\x7d" emptyConfig).isOk = false := by decide
example : resolve_config_value "$\x7ba.b" emptyConfig = .ok "$\x7ba.b" := by decide
example : resolve_config_value "5s" emptyConfig = .ok "5s" := by decide
example : Macro.validate_config_placeholder_format "$\x7ba.b" = some .missingClosingBrace := by
  decide
example : Macro.validate_config_placeholder_format "$\x7ba.b\x7ds" = some .missingClosingBrace := by
  decide
example : Macro.validate_config_placeholder_format "$\x7ba.b:5s\x7d" = none := by decide
example : Macro.validate_positive_value "0" false = some .zeroInterval := by decide
example : Macro.validate_positive_value "0" true = none := by decide
example : Scheduler.parse_interval "0" .Seconds = .ok (0, .Seconds, 0) := by decide
example : Scheduler.parse_initial_delay "0" .Seconds = 0 := by decide
example : Scheduler.start_tasks emptyConfig
    [{ ScheduledTask.builder "t" with schedule_type := "fixed_rate", schedule_value := "0" }]
    = .ok [.registered] := by decide
example : Loop.fixedDelayStarts 0 10 [3, 3, 3] = [0, 10, 20] := by decide
example : Loop.fixedDelayStarts 0 2 [5, 5, 5] = [0, 5, 10] := by decide

example : TimeUnit.parse_duration " 500ms " = some (500, .Milliseconds) := by decide
example : TimeUnit.parse_duration "5s" = some (5, .Seconds) := by decide

/-- C9 counterexample: a descriptor built through `ScheduledTask::builder`
with the optional fields left unset does not get `time_unit`
`"milliseconds"` or `zone` `"local"`. -/
theorem c9_builder_defaults_not_milliseconds_local :
    (ScheduledTask.builder "tick").time_unit ≠ "milliseconds" ∧
    (ScheduledTask.builder "tick").zone ≠ "local" ∧
    (RunnableTask.builder "tick").time_unit ≠ "milliseconds" ∧
    (RunnableTask.builder "tick").zone ≠ "local" := by
  refine ⟨by decide, by decide, by decide, by decide⟩

/-- C9 (amended): the explicit builders default `initial_delay` to `"0"`
and `enabled` to `"true"` as claimed, but default `time_unit` to
`"seconds"` and `zone` to `"UTC"`; the claimed `"milliseconds"` /
`"local"` defaults are those of the `#[scheduled]` macro's argument
parser, not of the builders. -/
theorem c9_builder_and_macro_defaults : ∀ name : String,
    (ScheduledTask.builder name).initial_delay = "0" ∧
    (ScheduledTask.builder name).enabled = "true" ∧
    (ScheduledTask.builder name).time_unit = "seconds" ∧
    (ScheduledTask.builder name).zone = "UTC" ∧
    (RunnableTask.builder name).initial_delay = "0" ∧
    (RunnableTask.builder name).enabled = "true" ∧
    (RunnableTask.builder name).time_unit = "seconds" ∧
    (RunnableTask.builder name).zone = "UTC" ∧
    macroDefaults.initial_delay = "0" ∧
    macroDefaults.enabled = "true" ∧
    macroDefaults.time_unit = "milliseconds" ∧
    macroDefaults.zone = "local" := by
  intro name
  exact ⟨rfl, rfl, rfl, rfl, rfl, rfl, rfl, rfl, rfl, rfl, rfl, rfl⟩

/-- C3: evaluating the runtime registration path at a zero interval.
`parse_interval` accepts `"0"` for every default unit, and a fixed-rate
descriptor with `schedule_value = "0"` registers successfully (the zero
period only blows up later, inside the spawned loop, when the interval
timer is constructed); `initial_delay = "0"` resolves to `0` ms.  Only
the macro's compile-time `validate_positive_value` rejects a literal
`"0"` interval — and it skips placeholders, so `"$\x7bk:0\x7d"`, which
resolves to `"0"`, reaches the accepting runtime path. -/
theorem c3_zero_interval_registration_succeeds :
    (∀ u : TimeUnit, Scheduler.parse_interval "0" u = .ok (0, u, 0)) ∧
    Scheduler.start_tasks emptyConfig [zeroRateTask] = .ok [.registered] ∧
    (∀ u : TimeUnit, Scheduler.parse_initial_delay "0" u = 0) ∧
    Macro.validate_positive_value "0" false = some .zeroInterval ∧
    Macro.validate_positive_value "$\x7bk:0\x7d" false = none ∧
    resolve_config_value "$\x7bk:0\x7d" emptyConfig = .ok "0" := by
  refine ⟨fun u => ?_, by decide, fun u => ?_, by decide, by decide, by decide⟩
  · cases u <;> decide
  · cases u <;> decide

/-- C4: the malformed placeholders `$\x7ba.b` (no closing brace) and
`$\x7ba.b\x7ds` (trailing characters) are both rejected by the macro's
compile-time validation with a malformed-placeholder error — a kind
distinct from the missing-key error, which only `resolve_config_value`
produces; resolution itself passes both strings through unchanged, so the
rejection indeed happens at validation, before resolution. -/
theorem c4_malformed_placeholders_rejected_at_validation :
    Macro.validate_config_placeholder_format "$\x7ba.b" = some .missingClosingBrace ∧
    Macro.validate_config_placeholder_format "$\x7ba.b\x7ds" = some .missingClosingBrace ∧
    (∀ g : Config,
      resolve_config_value "$\x7ba.b" g = .ok "$\x7ba.b" ∧
      resolve_config_value "$\x7ba.b\x7ds" g = .ok "$\x7ba.b\x7ds") ∧
    (resolve_config_value "$\x7ba.b\x7d" emptyConfig).isOk = false := by
  exact ⟨by decide, by decide, fun g => ⟨rfl, rfl⟩, by decide⟩

/-- C2 counterexample: a fixed-delay loop with interval `10` and work
duration `3` starts executions at `0, 10, 20` — consecutive starts are
`10` apart (the interval), not `13` (`interval + work_duration`) as the
claim's effective-period formula states. -/
theorem c2_period_not_interval_plus_work :
    Loop.fixedDelayStarts 0 10 [3, 3, 3] = [0, 10, 20] ∧ (10 : Nat) ≠ 10 + 3 := by
  exact ⟨by decide, by decide⟩

/-- C8 counterexample: in the `ScheduledTask` fixed-delay loop the handler
is called directly, so when the first invocation panics the loop dies and
the second planned invocation never starts. -/
theorem c8_scheduled_fixed_delay_panic_kills_loop :
    Loop.fixedDelayStarted Loop.scheduledFixedDelayIsolated [.panicked, .normal] = 1 ∧
    ([Loop.WorkOutcome.panicked, .normal] : List Loop.WorkOutcome).length = 2 := by
  exact ⟨by decide, by decide⟩

/-- C8 (amended): a panic only ever affects the loop whose body ran it —
the Runnable fixed-delay loop discards the `spawn_blocking` join error and
starts every planned invocation; fixed-rate loops detach each tick's work
and dispatch every planned invocation; but the `ScheduledTask` and
method-task fixed-delay loops run the work directly, so they start
exactly the invocations up to and including the first panicking one and
none after it. -/
theorem c8_panic_isolation_per_path :
    (∀ os : List Loop.WorkOutcome,
      Loop.fixedDelayStarted Loop.runnableFixedDelayIsolated os = os.length) ∧
    (∀ os : List Loop.WorkOutcome, Loop.fixedRateDispatched os = os.length) ∧
    (∀ (n : Nat) (rest : List Loop.WorkOutcome),
      Loop.fixedDelayStarted Loop.scheduledFixedDelayIsolated
        (List.replicate n .normal ++ .panicked :: rest) = n + 1) ∧
    (∀ (n : Nat) (rest : List Loop.WorkOutcome),
      Loop.fixedDelayStarted Loop.methodFixedDelayIsolated
        (List.replicate n .normal ++ .panicked :: rest) = n + 1) := by
  have hiso : ∀ os : List Loop.WorkOutcome,
      Loop.fixedDelayStarted true os = os.length := by
    intro os
    induction os with
    | nil => rfl
    | cons o os ih =>
      cases o <;> simp [Loop.fixedDelayStarted, ih, Nat.add_comm]
  have hstop : ∀ (n : Nat) (rest : List Loop.WorkOutcome),
      Loop.fixedDelayStarted false (List.replicate n .normal ++ .panicked :: rest) = n + 1 := by
    intro n rest
    induction n with
    | zero => simp [Loop.fixedDelayStarted]
    | succ n ih =>
      simp only [List.replicate_succ, List.cons_append, Loop.fixedDelayStarted,
        List.append_eq]
      rw [ih]
      omega
  exact ⟨hiso, fun _ => rfl, hstop, hstop⟩

/-- C10: in the per-descriptor loop of `Scheduler::start`, a descriptor
whose `enabled` field resolves to `en` is skipped as disabled exactly when
`en` lowercases to `"false"`; for any other value the task goes through
registration (succeeding or failing on its own merits, never because of
the unrecognized boolean) — concretely, `"no"`, `"0"`, `""` and arbitrary
text all register as enabled, while `"False"` and `"FALSE"` are skipped. -/
theorem c10_disabled_iff_false_case_insensitive :
    (∀ (config : Config) (t : TaskDescriptor) (en : String),
      resolve_config_value t.enabled config = .ok en →
      ((Scheduler.start_step config t = .ok .disabled ↔ TimeUnit.lowerStr en = "false") ∧
       (TimeUnit.lowerStr en ≠ "false" →
         Scheduler.start_step config t =
           .ok (match Scheduler.register_task config t with
                | .ok _ => .registered
                | .error e => .failed e)))) ∧
    Scheduler.start_step emptyConfig { goodRateTask with enabled := "no" } = .ok .registered ∧
    Scheduler.start_step emptyConfig { goodRateTask with enabled := "0" } = .ok .registered ∧
    Scheduler.start_step emptyConfig { goodRateTask with enabled := "" } = .ok .registered ∧
    Scheduler.start_step emptyConfig { goodRateTask with enabled := "yes?" } = .ok .registered ∧
    Scheduler.start_step emptyConfig { goodRateTask with enabled := "False" } = .ok .disabled ∧
    Scheduler.start_step emptyConfig { goodRateTask with enabled := "FALSE" } = .ok .disabled := by
  refine ⟨fun config t en h => ?_, by decide, by decide, by decide, by decide, by decide,
    by decide⟩
  constructor
  · unfold Scheduler.start_step
    rw [h]
    by_cases hf : TimeUnit.lowerStr en = "false"
    · simp [hf]
    · cases hr : Scheduler.register_task config t <;> simp [hf, hr]
  · intro hf
    unfold Scheduler.start_step
    rw [h]
    cases hr : Scheduler.register_task config t <;> simp [hf, hr]

/-- C5: `resolve_config_value` returns the default for `$\x7bkey:default\x7d`
when the key is absent, errors for `$\x7bkey\x7d` when the key is absent,
returns the stored value for `$\x7bkey\x7d` when present, and passes any
value not of the `$\x7b...\x7d` shape through unchanged. -/
theorem c5_resolve_config_value_spec :
    (∀ g : Config, g "a.b" = none →
      resolve_config_value "$\x7ba.b:5s\x7d" g = .ok "5s" ∧
      (resolve_config_value "$\x7ba.b\x7d" g).isOk = false) ∧
    (∀ g : Config, g "a.b" = some "7" →
      resolve_config_value "$\x7ba.b\x7d" g = .ok "7") ∧
    (∀ (s : String) (g : Config),
      (startsWithL ['$', lbrace] s.data && endsWithL [rbrace] s.data) = false →
      resolve_config_value s g = .ok s) ∧
    resolve_config_value "5s" emptyConfig = .ok "5s" := by
  refine ⟨fun g hg => ⟨?_, ?_⟩, fun g hg => ?_, fun s g hs => ?_, by decide⟩
  · have h : resolve_config_value "$\x7ba.b:5s\x7d" g =
        match g "a.b" with
        | some resolved => .ok resolved
        | none => .ok "5s" := rfl
    rw [h, hg]
  · have h : resolve_config_value "$\x7ba.b\x7d" g =
        match g "a.b" with
        | some resolved => .ok resolved
        | none => .error ("Config key 'a.b' not found and no default value provided.") := rfl
    rw [h, hg]
    rfl
  · have h : resolve_config_value "$\x7ba.b\x7d" g =
        match g "a.b" with
        | some resolved => .ok resolved
        | none => .error ("Config key 'a.b' not found and no default value provided.") := rfl
    rw [h, hg]
  · unfold resolve_config_value
    rw [hs]
    rfl

/-- C7: `Scheduler::parse_initial_delay` resolves every input —
`parse_duration` shorthand wins and its own unit converts the value; a
bare integer is converted with the supplied `time_unit`; anything else
falls back to `0` (it is a total function into milliseconds, with no
error path). -/
theorem c7_parse_initial_delay_total_fallback :
    ∀ (s : String) (tu : TimeUnit),
    (∀ (v : Nat) (u : TimeUnit), TimeUnit.parse_duration s = some (v, u) →
      Scheduler.parse_initial_delay s tu = u.to_millis v) ∧
    (TimeUnit.parse_duration s = none → ∀ v : Nat, parseU64 s = some v →
      Scheduler.parse_initial_delay s tu = tu.to_millis v) ∧
    (TimeUnit.parse_duration s = none → parseU64 s = none →
      Scheduler.parse_initial_delay s tu = 0) := by
  intro s tu
  refine ⟨fun v u h => ?_, fun h v hv => ?_, fun h hv => ?_⟩
  · unfold Scheduler.parse_initial_delay
    rw [h]
  · unfold Scheduler.parse_initial_delay
    rw [h, hv]
    rfl
  · unfold Scheduler.parse_initial_delay
    rw [h, hv]
    cases tu <;> rfl

/-- C1 counterexample: one descriptor whose `enabled` field fails to
resolve (a required placeholder on a missing key) makes the whole
`start()` fail — the well-formed descriptor after it is never registered,
although it registers fine on its own. -/
theorem c1_enabled_failure_aborts_start :
    (Scheduler.start_tasks emptyConfig [enabledFailTask, goodRateTask]).isOk = false ∧
    Scheduler.start_tasks emptyConfig [goodRateTask] = .ok [.registered] := by
  exact ⟨by decide, by decide⟩

/-- C1 (amended): failures inside the registration of one descriptor —
resolution of `time_unit`, `initial_delay`, `zone` or the schedule value,
and interval parsing — are caught and logged, and the remaining
descriptors still get their own outcomes; but the `enabled` field is
resolved with `?` in `start()` itself, so an `enabled` resolution failure
aborts the whole start.  Whenever every descriptor's `enabled` field
resolves, `start` yields one outcome per descriptor, each determined by
that descriptor alone; concretely, a failing interval on the first
descriptor is recorded as a caught error and the second still registers. -/
theorem c1_register_failures_isolated :
    (∀ (config : Config) (ts : List TaskDescriptor),
      (∀ t ∈ ts, (resolve_config_value t.enabled config).isOk = true) →
      ∃ os, Scheduler.start_tasks config ts = .ok os ∧
        List.Forall₂ (fun t o => Scheduler.start_step config t = .ok o) ts os) ∧
    Scheduler.start_tasks emptyConfig [badIntervalTask, goodRateTask] =
      .ok [.failed "Invalid interval value: abc", .registered] := by
  refine ⟨fun config ts h => ?_, by decide⟩
  induction ts with
  | nil => exact ⟨[], rfl, .nil⟩
  | cons t ts ih =>
    have ht : (resolve_config_value t.enabled config).isOk = true :=
      h t (List.mem_cons_self t ts)
    have hstep : ∃ o, Scheduler.start_step config t = .ok o := by
      cases hres : resolve_config_value t.enabled config with
      | error e => rw [hres] at ht; simp [Except.isOk, Except.toBool] at ht
      | ok en =>
        unfold Scheduler.start_step
        rw [hres]
        by_cases hf : TimeUnit.lowerStr en = "false"
        · exact ⟨.disabled, by simp [hf]⟩
        · cases hr : Scheduler.register_task config t with
          | error e => exact ⟨.failed e, by simp [hf, hr]⟩
          | ok _ => exact ⟨.registered, by simp [hf, hr]⟩
    obtain ⟨o, ho⟩ := hstep
    obtain ⟨os, hos, hall⟩ := ih fun t' ht' => h t' (List.mem_cons_of_mem _ ht')
    refine ⟨o :: os, ?_, List.Forall₂.cons ho hall⟩
    unfold Scheduler.start_tasks
    rw [ho, hos]

/-- Each execution of a fixed-delay loop ends no later than the next one
starts: the next start is `max (t + w) deadline ≥ t + w`. -/
theorem fixedDelayExec_chain (p : Nat) : ∀ (t dl : Nat) (ws : List Nat),
    List.Chain' (fun a b => a.1 + a.2 ≤ b.1) (Loop.fixedDelayExec p t dl ws) := by
  intro t dl ws
  induction ws generalizing t dl with
  | nil => exact List.chain'_nil
  | cons w ws ih =>
    rw [show Loop.fixedDelayExec p t dl (w :: ws) =
      (t, w) :: Loop.fixedDelayExec p (max (t + w) dl) (dl + p) ws from rfl]
    refine List.chain'_cons'.mpr ⟨?_, ih _ _⟩
    intro y hy
    cases ws with
    | nil => simp [Loop.fixedDelayExec] at hy
    | cons w' ws' =>
      simp only [Loop.fixedDelayExec, List.head?_cons, Option.mem_def,
        Option.some.injEq] at hy
      rw [← hy]
      simp

/-- When every work duration stays within the period, the deadline is
never overrun and the starts are exactly `t, t + p, t + 2p, ...`. -/
theorem fixedDelayExec_uniform (p : Nat) : ∀ (t : Nat) (ws : List Nat),
    (∀ w ∈ ws, w ≤ p) →
    (Loop.fixedDelayExec p t (t + p) ws).map Prod.fst =
      (List.range ws.length).map (fun k => t + k * p) := by
  intro t ws
  induction ws generalizing t with
  | nil => intro _; rfl
  | cons w ws ih =>
    intro h
    have hw : w ≤ p := h w (List.mem_cons_self w ws)
    have hmax : max (t + w) (t + p) = t + p := by omega
    show ((t, w) :: Loop.fixedDelayExec p (max (t + w) (t + p)) ((t + p) + p) ws).map
        Prod.fst = _
    rw [hmax, List.map_cons,
      ih (t + p) (fun w' hw' => h w' (List.mem_cons_of_mem _ hw')),
      List.length_cons, List.range_succ_eq_map, List.map_cons, List.map_map]
    refine congrArg₂ List.cons (by omega) (List.map_congr_left ?_)
    intro k _
    simp [Function.comp, Nat.succ_mul]
    omega

/-- C2 (amended): within one fixed-delay loop executions never overlap —
each work item completes before the next start — because the loop awaits
the work before awaiting the next tick; but the effective period is not
`interval + work_duration`: the tick deadlines are fixed at loop creation
plus multiples of the interval, so whenever every work duration is at
most the interval, consecutive starts are exactly `interval` apart, and a
work duration above the interval stretches the gap only to the work
duration itself (concretely, interval `100` with `300`-long work gives
starts `0, 300, 600`). -/
theorem c2_fixed_delay_sequential_and_period :
    (∀ (delay p : Nat) (ws : List Nat),
      List.Chain' (fun a b => a.1 + a.2 ≤ b.1)
        (Loop.fixedDelayExec p delay (delay + p) ws)) ∧
    (∀ (delay p : Nat) (ws : List Nat), (∀ w ∈ ws, w ≤ p) →
      Loop.fixedDelayStarts delay p ws =
        (List.range ws.length).map (fun k => delay + k * p)) ∧
    Loop.fixedDelayStarts 0 100 [300, 300, 300] = [0, 300, 600] := by
  exact ⟨fun delay p ws => fixedDelayExec_chain p delay (delay + p) ws,
    fun delay p ws h => fixedDelayExec_uniform p delay ws h,
    by decide⟩

/-- Characters kept by `takeWhile` all satisfy the predicate. -/
theorem takeWhile_all (p : Char → Bool) : ∀ cs : List Char, (cs.takeWhile p).all p = true := by
  intro cs
  induction cs with
  | nil => rfl
  | cons c cs ih =>
    by_cases hc : p c
    · simp [List.takeWhile_cons, hc, ih]
    · simp [List.takeWhile_cons, hc]

/-- Splitting at the first non-digit: an all-digit run followed by a
remainder that does not start with a digit is exactly what
`takeWhile`/`dropWhile` recover. -/
theorem span_digits_append : ∀ ds rest : List Char,
    ds.all Char.isDigit = true →
    (∀ c : Char, rest.head? = some c → c.isDigit = false) →
    (ds ++ rest).takeWhile Char.isDigit = ds ∧
      (ds ++ rest).dropWhile Char.isDigit = rest := by
  intro ds
  induction ds with
  | nil =>
    intro rest _ h2
    cases rest with
    | nil => exact ⟨rfl, rfl⟩
    | cons c cs =>
      have hc := h2 c rfl
      simp [List.takeWhile_cons, List.dropWhile_cons, hc]
  | cons d ds ih =>
    intro rest h1 h2
    simp only [List.all_cons, Bool.and_eq_true] at h1
    obtain ⟨h3, h4⟩ := ih rest h1.2 h2
    simp [List.cons_append, List.takeWhile_cons, List.dropWhile_cons, h1.1, h3, h4]

/-- The suffix table recognizes exactly the five suffix strings. -/
theorem suffixUnit_eq_some_iff : ∀ (rest : List Char) (u : TimeUnit),
    TimeUnit.suffixUnit rest = some u ↔ rest = suffixChars u := by
  intro rest u
  constructor
  · intro h
    unfold TimeUnit.suffixUnit at h
    split_ifs at h with h1 h2 h3 h4 h5 <;>
      (injection h with h'; subst h'; assumption)
  · intro h
    subst h
    cases u <;> rfl

/-- Rust `parse::<u64>` on a non-empty all-digit string succeeds exactly
below `2 ^ 64`. -/
theorem parseU64_digits : ∀ ds : List Char, ds ≠ [] → ds.all Char.isDigit = true →
    parseU64 (String.mk ds) =
      if digitsVal ds < U64SIZE then some (digitsVal ds) else none := by
  intro ds hne hall
  cases ds with
  | nil => exact absurd rfl hne
  | cons c cs =>
    have hc : c.isDigit = true := by
      simp only [List.all_cons, Bool.and_eq_true] at hall
      exact hall.1
    have hplus : ¬(c = '+') := by
      intro e
      rw [e] at hc
      exact absurd hc (by decide)
    simp only [parseU64]
    rw [if_neg hplus]
    simp [List.isEmpty, hall]

/-- Non-empty list has `isEmpty = false`. -/
theorem isEmpty_false_of_ne_nil {α : Type} {l : List α} (h : l ≠ []) :
    l.isEmpty = false := by
  cases l with
  | nil => exact absurd rfl h
  | cons a l => rfl

/-- C6 (amended): `parse_duration` returns `some (v, u)` exactly for the
strings whose whitespace-trimmed form decomposes as a non-empty ASCII
digit run with value `v` below `2 ^ 64` followed by the suffix of `u` —
the spec's grammar `[0-9]+(ms|s|m|h|d)` applied to the trimmed string,
plus the `u64` cap on the digit value; the spec's four concrete test
vectors hold as stated. -/
theorem c6_parse_duration_grammar :
    (∀ (s : String) (v : Nat) (u : TimeUnit),
      TimeUnit.parse_duration s = some (v, u) ↔
        ∃ ds, trimChars s.data = ds ++ suffixChars u ∧ ds ≠ [] ∧
          ds.all Char.isDigit = true ∧ digitsVal ds < U64SIZE ∧ v = digitsVal ds) ∧
    TimeUnit.parse_duration "500ms" = some (500, .Milliseconds) ∧
    TimeUnit.parse_duration "5S" = none ∧
    TimeUnit.parse_duration "500" = none ∧
    TimeUnit.parse_duration "ms" = none := by
  refine ⟨fun s v u => ⟨?_, ?_⟩, by decide, by decide, by decide, by decide⟩
  · intro h
    simp only [TimeUnit.parse_duration] at h
    by_cases hemp : (((trimChars s.data).takeWhile Char.isDigit).isEmpty ||
        ((trimChars s.data).dropWhile Char.isDigit).isEmpty) = true
    · rw [if_pos hemp] at h
      exact Option.noConfusion h
    · rw [if_neg hemp] at h
      simp only [Bool.or_eq_true, not_or, Bool.not_eq_true] at hemp
      cases hp : parseU64 (String.mk ((trimChars s.data).takeWhile Char.isDigit)) with
      | none => rw [hp] at h; simp at h
      | some value =>
        cases hsu : TimeUnit.suffixUnit ((trimChars s.data).dropWhile Char.isDigit) with
        | none => rw [hp, hsu] at h; simp at h
        | some unit =>
          rw [hp, hsu] at h
          simp only [Option.some.injEq, Prod.mk.injEq] at h
          obtain ⟨hv, hu⟩ := h
          rw [hu] at hsu
          have hne : (trimChars s.data).takeWhile Char.isDigit ≠ [] := by
            intro e
            rw [e] at hemp
            exact absurd hemp.1 (by decide)
          have hall := takeWhile_all Char.isDigit (trimChars s.data)
          refine ⟨(trimChars s.data).takeWhile Char.isDigit, ?_, hne, hall, ?_, ?_⟩
          · rw [← (suffixUnit_eq_some_iff _ u).mp hsu]
            exact (List.takeWhile_append_dropWhile Char.isDigit (trimChars s.data)).symm
          · rw [parseU64_digits _ hne hall] at hp
            by_cases hb : digitsVal ((trimChars s.data).takeWhile Char.isDigit) < U64SIZE
            · exact hb
            · rw [if_neg hb] at hp
              exact Option.noConfusion hp
          · rw [parseU64_digits _ hne hall] at hp
            by_cases hb : digitsVal ((trimChars s.data).takeWhile Char.isDigit) < U64SIZE
            · rw [if_pos hb] at hp
              injection hp with hp'
              rw [← hv]
              exact hp'.symm
            · rw [if_neg hb] at hp
              exact Option.noConfusion hp
  · rintro ⟨ds, hdec, hne, hall, hbound, hv⟩
    have hhead : ∀ c : Char, (suffixChars u).head? = some c → c.isDigit = false := by
      cases u <;> (intro c hc; injection hc with hc'; rw [← hc']; decide)
    obtain ⟨htake, hdrop⟩ := span_digits_append ds (suffixChars u) hall hhead
    have hsufne : suffixChars u ≠ [] := by cases u <;> decide
    simp only [TimeUnit.parse_duration, hdec, htake, hdrop,
      isEmpty_false_of_ne_nil hne, isEmpty_false_of_ne_nil hsufne, Bool.or_self,
      if_false]
    rw [parseU64_digits ds hne hall, if_pos hbound,
      (suffixUnit_eq_some_iff (suffixChars u) u).mpr rfl]
    rw [hv]
    rfl

/-- C6 counterexample: `" 500ms"` (leading space) does not match the
spec's grammar `^[0-9]+(ms|s|m|h|d)$`, yet `parse_duration` accepts it
(the Rust code trims the input first) — so `parse_duration` does not
return `None` for every string outside the grammar. -/
theorem c6_trimmed_input_accepted :
    specDurationGrammar " 500ms" = false ∧
    TimeUnit.parse_duration " 500ms" = some (500, .Milliseconds) := by
  exact ⟨by decide, by decide⟩

end Concerto
